import Mathlib

/-!
Verification of the aggregation pipeline of the AWS Cost Explorer CLI
(src/app.py) against its design notes.

Costs are modelled as rationals (the design treats currency as decimal with
a fixed epsilon of 0.01); strings keep their Lean type.  Pandas grouping
(`df.groupby(k)[c].sum()`) is modelled as: for each distinct key in
ascending key order, the sum of the column over the rows carrying the key,
which matches pandas' sorted group keys.  `sort_values(ascending=False)` is
modelled as a deterministic insertion sort, descending on the summed cost.
Console output is modelled as a trace of structured output items; the exact
string rendering of tables is out of scope, but fixed string literals
(the machine-mode error document) are kept verbatim.
-/

/-- The 0.01 currency-unit threshold ("less than 1 cent") used by
`process_cost_data` and the human-mode path of `main` in app.py.
`mkRat 1 100` is the rational 1/100 = 0.01, written in a form the kernel
can evaluate. -/
def EPS : ℚ := mkRat 1 100

/-- A flattened cost record, app.py lines 53-58:
`{'Date': date, 'Service': service, 'UsageType': usage_type, 'Cost': cost}`. -/
structure CostRecord where
  date : String
  service : String
  usageType : String
  cost : ℚ
deriving DecidableEq

/-- One entry of `result['Groups']` in the Cost Explorer response:
`Keys` (service, usage type) and the `UnblendedCost` amount. -/
structure RawGroup where
  keys : List String
  amount : ℚ
deriving DecidableEq

/-- One entry of `response['ResultsByTime']`: the period start date and the
nested groups. -/
structure RawResult where
  start : String
  groups : List RawGroup
deriving DecidableEq

/-- Exceptions that can be raised inside the `try` block of `get_cost_data`:
`botocore.exceptions.ClientError` (an API error response), or any other
exception (missing credentials, endpoint connection failures, ...), which
the `except ClientError` clause does not match. -/
inductive PyExc where
  | clientError (msg : String)
  | otherError (msg : String)
deriving DecidableEq

/-- app.py lines 45-61: flatten `ResultsByTime` into flat records.
`service = group['Keys'][0]`; `usage_type = group['Keys'][1] if
len(group['Keys']) > 1 else 'N/A'` (the API always returns both requested
group keys; a missing `Keys[0]` is modelled as the empty string);
`if cost > 0:` keeps only strictly positive costs. -/
def flatten_response (results : List RawResult) : List CostRecord :=
  results.flatMap fun result =>
    result.groups.filterMap fun g =>
      if 0 < g.amount then
        some { date := result.start
               service := g.keys.getD 0 ""
               usageType := g.keys.getD 1 "N/A"
               cost := g.amount }
      else none

/-- app.py lines 16-65, `get_cost_data`: the body either yields a response
or raises.  A `ClientError` is caught and turned into `[]` (after printing
an error message); any other exception propagates out of the function. -/
def get_cost_data (resp : Except PyExc (List RawResult)) :
    Except PyExc (List CostRecord) :=
  match resp with
  | .ok results => .ok (flatten_response results)
  | .error (.clientError _) => .ok []
  | .error (.otherError m) => .error (.otherError m)

/-- Insertion into a list of strings, ascending; used to model the sorted
group keys produced by pandas `groupby`. -/
def insertAsc (x : String) : List String → List String
  | [] => [x]
  | y :: ys => if x ≤ y then x :: y :: ys else y :: insertAsc x ys

/-- Sort a list of strings ascending (pandas sorts group keys). -/
def sortKeys (l : List String) : List String :=
  l.foldr insertAsc []

/-- Sum of the `Cost` column over the rows whose key equals `k`. -/
def fiberSum (key : CostRecord → String) (k : String) (rs : List CostRecord) : ℚ :=
  ((rs.filter fun r => key r = k).map CostRecord.cost).sum

/-- The distinct keys of the rows, in ascending order. -/
def keysOf (key : CostRecord → String) (rs : List CostRecord) : List String :=
  sortKeys (rs.map key).dedup

/-- `df.groupby(key)['Cost'].sum()`: one `(key, summed cost)` pair per
distinct key, keys ascending. -/
def groupSum (key : CostRecord → String) (rs : List CostRecord) : List (String × ℚ) :=
  (keysOf key rs).map fun k => (k, fiberSum key k rs)

/-- Insertion into a `(name, cost)` list, descending by cost; models one
step of `sort_values(ascending=False)`. -/
def insertDesc (x : String × ℚ) : List (String × ℚ) → List (String × ℚ)
  | [] => [x]
  | y :: ys => if y.2 < x.2 then x :: y :: ys else y :: insertDesc x ys

/-- `series.sort_values(ascending=False)`: deterministic sort of the
`(name, cost)` pairs, descending by cost. -/
def sort_values_desc (l : List (String × ℚ)) : List (String × ℚ) :=
  l.foldr insertDesc []

/-- One element of a service's `usageTypes` list: `{'name': ..., 'cost': ...}`. -/
structure UsageTypeCost where
  name : String
  cost : ℚ
deriving DecidableEq

/-- One element of `result['services']` in `process_cost_data`. -/
structure ServiceData where
  name : String
  cost : ℚ
  percentage : ℚ
  usageTypes : List UsageTypeCost
deriving DecidableEq

/-- One `{'name': ..., 'cost': ...}` entry of a daily summary. -/
structure DailyServiceCost where
  name : String
  cost : ℚ
deriving DecidableEq

/-- One element of `result['dailyCosts']`. -/
structure DailySummary where
  date : String
  services : List DailyServiceCost
deriving DecidableEq

/-- The structured result of `process_cost_data`. -/
structure Report where
  totalCost : ℚ
  services : List ServiceData
  dailyCosts : List DailySummary
deriving DecidableEq

/-- The rows of `daily_costs = df.groupby(['Date','Service'])['Cost'].sum()
.reset_index()`: `(date, service, cost)` triples, sorted by date then
service (pandas sorts the group keys lexicographically). -/
def daily_costs_rows (df : List CostRecord) : List (String × String × ℚ) :=
  (keysOf CostRecord.date df).flatMap fun d =>
    (groupSum CostRecord.service (df.filter fun r => r.date = d)).map fun p =>
      (d, p.1, p.2)

/-- app.py line 72: `df = costs_df[costs_df['Cost'] > 0.01]`, the record
filter at the start of `process_cost_data`. -/
def agg_df (costs_df : List CostRecord) : List CostRecord :=
  costs_df.filter fun r => EPS < r.cost

/-- app.py lines 75-76: the `service_costs` series of `process_cost_data`:
per-service sums over the filtered records, kept when > 0.01, sorted
descending by cost. -/
def agg_service_costs (costs_df : List CostRecord) : List (String × ℚ) :=
  sort_values_desc
    ((groupSum CostRecord.service (agg_df costs_df)).filter fun p => EPS < p.2)

/-- app.py line 78: `total_cost = service_costs.sum()`. -/
def agg_total_cost (costs_df : List CostRecord) : ℚ :=
  ((agg_service_costs costs_df).map Prod.snd).sum

/-- app.py lines 90-91: the `service_usage` series for one service:
per-usage-type sums over the service's filtered rows, kept when > 0.01,
sorted descending. -/
def agg_service_usage (costs_df : List CostRecord) (service : String) :
    List (String × ℚ) :=
  sort_values_desc
    ((groupSum CostRecord.usageType
        ((agg_df costs_df).filter fun r => r.service = service)).filter
      fun q => EPS < q.2)

/-- app.py lines 67-124, `process_cost_data`.  Filter records with cost
≤ 0.01; group by service, sum, keep sums > 0.01, sort descending; the
total is the sum of the surviving service sums; per service (lines 88-106,
guarded again by cost > 0.01), group its rows by usage type with a final
> 0.01 guard in the comprehension; group by (date, service) for the daily
summaries (lines 108-122).  Division is rational division (the loop only
computes `cost/total_cost` when the service list is non-empty, so the
Python code never divides by zero there). -/
def process_cost_data (costs_df : List CostRecord) : Report :=
  { totalCost := agg_total_cost costs_df
    services := (agg_service_costs costs_df).filterMap fun p =>
      if EPS < p.2 then
        some { name := p.1
               cost := p.2
               percentage := p.2 / agg_total_cost costs_df * 100
               usageTypes :=
                 ((agg_service_usage costs_df p.1).filter fun q => EPS < q.2).map
                   fun q => { name := q.1, cost := q.2 } }
      else none
    dailyCosts := (keysOf CostRecord.date (agg_df costs_df)).map fun d =>
      { date := d
        services :=
          ((daily_costs_rows (agg_df costs_df)).filter
              fun t => t.1 = d ∧ EPS < t.2.2).map fun t =>
            { name := t.2.1, cost := t.2.2 } } }

/-- app.py line 163 (human mode): `df = df[df['Cost'] > 0.01]`, written a
second time, inline in `main`. -/
def human_df (costs : List CostRecord) : List CostRecord :=
  costs.filter fun r => EPS < r.cost

/-- app.py lines 166-167 (human mode): per-service sums, filtered > 0.01,
sorted descending — duplicated inline in `main`. -/
def human_service_costs (costs : List CostRecord) : List (String × ℚ) :=
  sort_values_desc
    ((groupSum CostRecord.service (human_df costs)).filter fun p => EPS < p.2)

/-- app.py line 169 (human mode): `total_cost = service_costs.sum()`. -/
def human_total_cost (costs : List CostRecord) : ℚ :=
  ((human_service_costs costs).map Prod.snd).sum

/-- app.py lines 183-190 (human mode): the rows of the services overview
table, `(service, cost, percentage of total)`, one row per service with
cost > 0.01, in series order. -/
def human_service_rows (costs : List CostRecord) : List (String × ℚ × ℚ) :=
  (human_service_costs costs).filterMap fun p =>
    if EPS < p.2 then some (p.1, p.2, p.2 / human_total_cost costs * 100)
    else none

/-- app.py lines 209-231 (human mode): one usage-type table per service
with cost > 0.01.  Line 212 sorts the per-usage-type sums descending
WITHOUT the series-level > 0.01 filter that `process_cost_data` applies;
the loop at lines 224-225 then only displays rows with cost > 0.01.  Each
table is `(service, [(usage type, cost, percentage of service cost)])`. -/
def human_usage_tables (costs : List CostRecord) :
    List (String × List (String × ℚ × ℚ)) :=
  (human_service_costs costs).filterMap fun p =>
    if EPS < p.2 then
      let service_df := (human_df costs).filter fun r => r.service = p.1
      let usage_costs := sort_values_desc (groupSum CostRecord.usageType service_df)
      some (p.1,
        (usage_costs.filter fun q => EPS < q.2).map fun q =>
          (q.1, q.2, q.2 / p.2 * 100))
    else none

/-- An item of the program's console/stdout trace.  Tables and panels are
kept structurally (their numeric content, not their string rendering);
lines printed with Python `print` are kept as exact strings. -/
inductive OutItem where
  | headerPanel
  | errorNotice (msg : String)
  | stdoutLine (s : String)
  | reportDoc (r : Report)
  | servicesTable (rows : List (String × ℚ × ℚ)) (total : ℚ)
  | breakdownPanel
  | usageTable (service : String) (rows : List (String × ℚ × ℚ))
deriving DecidableEq

/-- The exact document printed by
`print(json.dumps({'error': 'No cost data found'}))` at app.py line 148
(json.dumps default separators put one space after the colon). -/
def no_data_json : String :=
  "\x7b\"error\": \"No cost data found\"\x7d"

/-- app.py lines 136-234, `main` after the fetch: the output trace as a
function of the output-mode flag and the fetched records.  Human mode
prints the header panel before fetching; if the record list is empty,
machine mode prints the error document and human mode an error notice and
returns; otherwise machine mode prints the JSON report and human mode the
services table, the breakdown panel and one usage table per service. -/
def main_run (jsonMode : Bool) (costs : List CostRecord) : List OutItem :=
  (if jsonMode then [] else [OutItem.headerPanel]) ++
  if costs = [] then
    if jsonMode then [OutItem.stdoutLine no_data_json]
    else [OutItem.errorNotice "No cost data found or error occurred."]
  else if jsonMode then [OutItem.reportDoc (process_cost_data costs)]
  else
    [OutItem.servicesTable (human_service_rows costs) (human_total_cost costs),
     OutItem.breakdownPanel] ++
    (human_usage_tables costs).map fun t => OutItem.usageTable t.1 t.2

/-- The whole pipeline: `main` calls `get_cost_data` and then renders.
An uncaught exception inside the fetch propagates out of `main` (Python
would terminate with a traceback); the message printed inside the
`except ClientError` branch is not part of the modelled trace. -/
def run_program (jsonMode : Bool) (resp : Except PyExc (List RawResult)) :
    Except PyExc (List OutItem) :=
  match get_cost_data resp with
  | .ok costs => .ok (main_run jsonMode costs)
  | .error e => .error e

/-! ### Permutation and sortedness facts about the sorting helpers -/

theorem insertAsc_perm (x : String) (l : List String) :
    (insertAsc x l).Perm (x :: l) := by
  induction l with
  | nil => simp [insertAsc]
  | cons y ys ih =>
    simp only [insertAsc]
    split
    · exact List.Perm.refl _
    · exact (List.Perm.cons y ih).trans (List.Perm.swap x y ys)

theorem sortKeys_perm (l : List String) : (sortKeys l).Perm l := by
  induction l with
  | nil => simp [sortKeys]
  | cons y ys ih =>
    exact (insertAsc_perm y (sortKeys ys)).trans (List.Perm.cons y ih)

theorem insertDesc_perm (x : String × ℚ) (l : List (String × ℚ)) :
    (insertDesc x l).Perm (x :: l) := by
  induction l with
  | nil => simp [insertDesc]
  | cons y ys ih =>
    simp only [insertDesc]
    split
    · exact List.Perm.refl _
    · exact (List.Perm.cons y ih).trans (List.Perm.swap x y ys)

theorem sort_values_desc_perm (l : List (String × ℚ)) :
    (sort_values_desc l).Perm l := by
  induction l with
  | nil => simp [sort_values_desc]
  | cons y ys ih =>
    exact (insertDesc_perm y (sort_values_desc ys)).trans (List.Perm.cons y ih)

theorem mem_sort_values_desc {p : String × ℚ} {l : List (String × ℚ)} :
    p ∈ sort_values_desc l ↔ p ∈ l :=
  (sort_values_desc_perm l).mem_iff

theorem pairwise_insertDesc (x : String × ℚ) {l : List (String × ℚ)}
    (h : l.Pairwise fun a b => b.2 ≤ a.2) :
    (insertDesc x l).Pairwise fun a b => b.2 ≤ a.2 := by
  induction l with
  | nil => simp [insertDesc]
  | cons y ys ih =>
    rcases List.pairwise_cons.mp h with ⟨hy, hys⟩
    simp only [insertDesc]
    split
    · rename_i hlt
      refine List.pairwise_cons.mpr ⟨?_, h⟩
      intro z hz
      rcases List.mem_cons.mp hz with rfl | hz
      · exact le_of_lt hlt
      · exact (hy z hz).trans (le_of_lt hlt)
    · rename_i hge
      refine List.pairwise_cons.mpr ⟨?_, ih hys⟩
      intro z hz
      rcases List.mem_cons.mp ((insertDesc_perm x ys).mem_iff.mp hz) with rfl | hz2
      · exact le_of_not_lt hge
      · exact hy z hz2

theorem sort_values_desc_sorted (l : List (String × ℚ)) :
    (sort_values_desc l).Pairwise fun a b => b.2 ≤ a.2 := by
  induction l with
  | nil => simp [sort_values_desc]
  | cons y ys ih => exact pairwise_insertDesc y ih

/-! ### Group sums partition the total -/

theorem keysOf_nodup (key : CostRecord → String) (rs : List CostRecord) :
    (keysOf key rs).Nodup :=
  (sortKeys_perm (rs.map key).dedup).nodup_iff.mpr (List.nodup_dedup _)

theorem mem_keysOf {key : CostRecord → String} {rs : List CostRecord}
    {k : String} : k ∈ keysOf key rs ↔ ∃ r ∈ rs, key r = k := by
  unfold keysOf
  rw [(sortKeys_perm _).mem_iff, List.mem_dedup, List.mem_map]

theorem fiberSum_cons (key : CostRecord → String) (k : String)
    (r : CostRecord) (t : List CostRecord) :
    fiberSum key k (r :: t) =
      (if key r = k then r.cost else 0) + fiberSum key k t := by
  unfold fiberSum
  rw [List.filter_cons]
  split
  · rename_i hk
    simp only [List.map_cons, List.sum_cons]
    rw [if_pos (by simpa using hk)]
  · rename_i hk
    rw [if_neg (by simpa using hk), zero_add]

theorem sum_if_eq (ks : List String) (a : String) (c : ℚ) (hn : ks.Nodup)
    (ha : a ∈ ks) : (ks.map fun k => if a = k then c else 0).sum = c := by
  induction ks with
  | nil => cases ha
  | cons y ys ih =>
    rcases List.nodup_cons.mp hn with ⟨hy, hys⟩
    simp only [List.map_cons, List.sum_cons]
    by_cases hay : a = y
    · subst hay
      rw [if_pos rfl]
      have hz : (ys.map fun k => if a = k then c else 0).sum = 0 := by
        rw [List.sum_eq_zero]
        intro x hx
        rcases List.mem_map.mp hx with ⟨b, hb, rfl⟩
        have hab : a ≠ b := by
          rintro rfl
          exact hy hb
        simp [hab]
      rw [hz, add_zero]
    · have ha2 : a ∈ ys := by
        rcases List.mem_cons.mp ha with h1 | h1
        · exact absurd h1 hay
        · exact h1
      rw [if_neg hay, zero_add, ih hys ha2]

theorem sum_fiberSums (key : CostRecord → String) (rs : List CostRecord)
    (ks : List String) (hn : ks.Nodup) (hc : ∀ r ∈ rs, key r ∈ ks) :
    (ks.map fun k => fiberSum key k rs).sum = (rs.map CostRecord.cost).sum := by
  induction rs with
  | nil =>
    simp [fiberSum]
  | cons r t ih =>
    have hsplit :
        (ks.map fun k => fiberSum key k (r :: t)).sum =
          (ks.map fun k => if key r = k then r.cost else 0).sum +
            (ks.map fun k => fiberSum key k t).sum := by
      rw [← List.sum_map_add]
      congr 1
      exact List.map_congr_left fun k _ => fiberSum_cons key k r t
    rw [hsplit, sum_if_eq ks (key r) r.cost hn (hc r (List.mem_cons_self r t)),
      ih fun x hx => hc x (List.mem_cons_of_mem r hx)]
    simp

theorem groupSum_total (key : CostRecord → String) (rs : List CostRecord) :
    ((groupSum key rs).map Prod.snd).sum = (rs.map CostRecord.cost).sum := by
  unfold groupSum
  rw [List.map_map]
  exact sum_fiberSums key rs (keysOf key rs) (keysOf_nodup key rs)
    fun r hr => mem_keysOf.mpr ⟨r, hr, rfl⟩

/-! ### Every group sum over retained records exceeds the threshold -/

theorem mem_groupSum {key : CostRecord → String} {rs : List CostRecord}
    {p : String × ℚ} (hp : p ∈ groupSum key rs) :
    p.1 ∈ keysOf key rs ∧ p.2 = fiberSum key p.1 rs := by
  rcases List.mem_map.mp hp with ⟨k, hk, rfl⟩
  exact ⟨hk, rfl⟩

theorem groupSum_snd_pos {key : CostRecord → String} {rs : List CostRecord}
    (hrs : ∀ r ∈ rs, EPS < r.cost) :
    ∀ p ∈ groupSum key rs, EPS < p.2 := by
  intro p hp
  rcases mem_groupSum hp with ⟨hk, hv⟩
  rcases mem_keysOf.mp hk with ⟨r0, hr0, hkey⟩
  have hmem : r0.cost ∈ (rs.filter fun r => key r = p.1).map CostRecord.cost :=
    List.mem_map.mpr ⟨r0, List.mem_filter.mpr ⟨hr0, by simp [hkey]⟩, rfl⟩
  have hnn : ∀ x ∈ (rs.filter fun r => key r = p.1).map CostRecord.cost, 0 ≤ x := by
    intro x hx
    rcases List.mem_map.mp hx with ⟨r, hr, rfl⟩
    exact le_of_lt (lt_trans (show (0:ℚ) < EPS by decide) (hrs r (List.mem_filter.mp hr).1))
  have hle : r0.cost ≤ fiberSum key p.1 rs :=
    List.single_le_sum hnn _ hmem
  exact hv ▸ lt_of_lt_of_le (hrs r0 hr0) hle

theorem agg_df_pos (costs : List CostRecord) :
    ∀ r ∈ agg_df costs, EPS < r.cost := by
  intro r hr
  have := (List.mem_filter.mp hr).2
  simpa using this

/-- Over records whose costs all exceed the threshold, a group-level
> 0.01 filter removes nothing: every group's sum is itself > 0.01 because
it is a sum of a non-empty set of costs each > 0.01. -/
theorem groupSum_filter_id {key : CostRecord → String} {rs : List CostRecord}
    (h : ∀ r ∈ rs, EPS < r.cost) :
    ((groupSum key rs).filter fun p => EPS < p.2) = groupSum key rs := by
  rw [List.filter_eq_self]
  intro p hp
  exact decide_eq_true (groupSum_snd_pos h p hp)

theorem agg_service_costs_pos (costs : List CostRecord) :
    ∀ p ∈ agg_service_costs costs, EPS < p.2 := by
  intro p hp
  have hp2 := mem_sort_values_desc.mp hp
  have := (List.mem_filter.mp hp2).2
  simpa using this

/-- The total is the sum of all retained record costs: the service-level
filter drops nothing and the group sums partition the filtered records. -/
theorem agg_total_cost_eq_retained (costs : List CostRecord) :
    agg_total_cost costs = ((agg_df costs).map CostRecord.cost).sum := by
  unfold agg_total_cost agg_service_costs
  rw [groupSum_filter_id (agg_df_pos costs)]
  have hperm :
      ((sort_values_desc (groupSum CostRecord.service (agg_df costs))).map
          Prod.snd).Perm
        ((groupSum CostRecord.service (agg_df costs)).map Prod.snd) :=
    (sort_values_desc_perm _).map Prod.snd
  rw [hperm.sum_eq, groupSum_total]

/-- Generic: a filterMap whose guard holds on every element is a map. -/
theorem filterMap_if_all {α β : Type} (P : α → Prop) [DecidablePred P]
    (f : α → β) (l : List α) (h : ∀ a ∈ l, P a) :
    (l.filterMap fun a => if P a then some (f a) else none) = l.map f := by
  induction l with
  | nil => rfl
  | cons x t ih =>
    rw [List.filterMap_cons, List.map_cons,
      if_pos (h x (List.mem_cons_self x t)),
      ih fun a ha => h a (List.mem_cons_of_mem x ha)]

/-- The ServiceData entry built from one `(service, cost)` pair of the
`service_costs` series, app.py lines 93-105. -/
def mkServiceData (costs : List CostRecord) (p : String × ℚ) : ServiceData :=
  { name := p.1
    cost := p.2
    percentage := p.2 / agg_total_cost costs * 100
    usageTypes :=
      ((agg_service_usage costs p.1).filter fun q => EPS < q.2).map
        fun q => { name := q.1, cost := q.2 } }

/-- Since every element of `service_costs` already passed the > 0.01
filter, the guard in the services loop is always true and the loop maps
over the series. -/
theorem services_eq_map (costs : List CostRecord) :
    (process_cost_data costs).services =
      (agg_service_costs costs).map (mkServiceData costs) := by
  show ((agg_service_costs costs).filterMap fun p =>
      if EPS < p.2 then some (mkServiceData costs p) else none) = _
  exact filterMap_if_all _ _ _ (agg_service_costs_pos costs)

theorem service_df_pos (costs : List CostRecord) (s : String) :
    ∀ r ∈ (agg_df costs).filter fun r => r.service = s, EPS < r.cost :=
  fun r hr => agg_df_pos costs r (List.mem_filter.mp hr).1

theorem agg_service_usage_pos (costs : List CostRecord) (s : String) :
    ∀ q ∈ agg_service_usage costs s, EPS < q.2 := by
  intro q hq
  have hq2 := mem_sort_values_desc.mp hq
  have := (List.mem_filter.mp hq2).2
  simpa using this

/-- The costs listed under one service's usageTypes sum to the service's
own grouped cost: both filters drop nothing and the usage-type sums
partition the service's rows. -/
theorem usage_sum_eq (costs : List CostRecord) (s : String) :
    (((agg_service_usage costs s).filter fun q => EPS < q.2).map Prod.snd).sum =
      fiberSum CostRecord.service s (agg_df costs) := by
  have hfil :
      ((agg_service_usage costs s).filter fun q => EPS < q.2) =
        agg_service_usage costs s := by
    rw [List.filter_eq_self]
    intro q hq
    exact decide_eq_true (agg_service_usage_pos costs s q hq)
  rw [hfil]
  unfold agg_service_usage
  rw [groupSum_filter_id (service_df_pos costs s)]
  have hperm :
      ((sort_values_desc
          (groupSum CostRecord.usageType
            ((agg_df costs).filter fun r => r.service = s))).map Prod.snd).Perm
        ((groupSum CostRecord.usageType
            ((agg_df costs).filter fun r => r.service = s)).map Prod.snd) :=
    (sort_values_desc_perm _).map Prod.snd
  rw [hperm.sum_eq, groupSum_total]
  rfl

theorem agg_service_costs_spec (costs : List CostRecord) :
    ∀ p ∈ agg_service_costs costs,
      p.2 = fiberSum CostRecord.service p.1 (agg_df costs) := by
  intro p hp
  have hp2 := mem_sort_values_desc.mp hp
  exact (mem_groupSum (List.mem_filter.mp hp2).1).2

/-! ### Concrete inputs used by witnesses and counterexamples -/

/-- One record above the threshold. -/
def exSingle : List CostRecord :=
  [{ date := "2024-01-01", service := "EC2", usageType := "BoxUsage", cost := 10 }]

/-- One record with 0 < cost ≤ 0.01 (half a cent). -/
def exSub : List CostRecord :=
  [{ date := "2024-01-01", service := "EC2", usageType := "BoxUsage", cost := mkRat 1 200 }]

/-- A raw API response with a single half-cent group. -/
def exSubResp : List RawResult :=
  [{ start := "2024-01-01",
     groups := [{ keys := ["EC2", "BoxUsage"], amount := mkRat 1 200 }] }]

/-- A raw API response with a single ten-dollar group. -/
def exResp : List RawResult :=
  [{ start := "2024-01-01",
     groups := [{ keys := ["EC2", "BoxUsage"], amount := 10 }] }]

/-! ### Claims -/

/-- Claim C1, counterexample: the Fetcher does NOT drop records with
0 < cost ≤ 0.01.  app.py line 52 filters with `if cost > 0`, so a
half-cent group is returned by `get_cost_data`, contradicting the claim
that no record with 0 < cost ≤ 0.01 appears in the Fetcher's output. -/
theorem C1_counterexample :
    get_cost_data (.ok exSubResp) = .ok (flatten_response exSubResp) ∧
    flatten_response exSubResp = exSub ∧
    ∃ r ∈ exSub, 0 < r.cost ∧ r.cost ≤ EPS := by
  refine ⟨rfl, by decide, _, List.mem_cons_self _ _, ?_, ?_⟩ <;> decide

/-- Claim C1 (amended): the Fetcher drops only records with cost ≤ 0 at
the source (`if cost > 0`, app.py line 52); records with 0 < cost ≤ 0.01
can appear in its output and are removed later by the Aggregator's
record-level > 0.01 filter. -/
theorem C1_fetcher_drops_only_nonpositive (results : List RawResult)
    (costs : List CostRecord) (h : get_cost_data (.ok results) = .ok costs) :
    (∀ r ∈ costs, 0 < r.cost) ∧ ∀ r ∈ agg_df costs, EPS < r.cost := by
  have hc : costs = flatten_response results := by
    have h2 : Except.ok (ε := PyExc) (flatten_response results) = .ok costs := h
    exact (Except.ok.injEq _ _).mp h2 |>.symm
  subst hc
  refine ⟨?_, agg_df_pos _⟩
  intro r hr
  rcases List.mem_flatMap.mp hr with ⟨res, _, hr2⟩
  rcases List.mem_filterMap.mp hr2 with ⟨g, _, hsome⟩
  by_cases hpos : 0 < g.amount
  · rw [if_pos hpos] at hsome
    cases hsome
    exact hpos
  · rw [if_neg hpos] at hsome
    cases hsome

/-- Claim C1, witness. -/
theorem C1_witness :
    (∀ r ∈ flatten_response exResp, 0 < r.cost) ∧
      ∀ r ∈ agg_df (flatten_response exResp), EPS < r.cost :=
  C1_fetcher_drops_only_nonpositive exResp (flatten_response exResp) rfl

/-- Claim C2, counterexample: on an empty record sequence, machine mode
emits `{"error": "No cost data found"}` (app.py line 148), not the exact
document `{"error": "no data"}` the claim states. -/
theorem C2_counterexample :
    main_run true [] = [OutItem.stdoutLine no_data_json] ∧
    no_data_json ≠ "\x7b\"error\": \"no data\"\x7d" :=
  ⟨rfl, by decide⟩

/-- Claim C2 (amended): when the fetch yields an empty record sequence,
machine mode emits exactly the JSON document
`{"error": "No cost data found"}` on standard output, and human mode
prints an error notice and no tables. -/
theorem C2_empty_fetch_output :
    main_run true [] = [OutItem.stdoutLine no_data_json] ∧
    no_data_json = "\x7b\"error\": \"No cost data found\"\x7d" ∧
    main_run false [] =
      [OutItem.headerPanel,
       OutItem.errorNotice "No cost data found or error occurred."] :=
  ⟨rfl, rfl, rfl⟩

/-- Claim C5, counterexample: a failure during data retrieval that is not
a `botocore.exceptions.ClientError` (for example a missing-credentials
error) is NOT caught by the `except ClientError` clause at app.py line 63
and propagates out of the program as a crash. -/
theorem C5_counterexample :
    run_program true (.error (.otherError "NoCredentialsError")) =
      .error (.otherError "NoCredentialsError") :=
  rfl

/-- Claim C5 (amended): a `ClientError` raised during data retrieval is
caught and converted into exactly the same user-facing output as an empty
result, in both output modes; but exceptions other than `ClientError`
propagate out of the program. -/
theorem C5_client_error_handled (mode : Bool) (msg : String) :
    run_program mode (.error (.clientError msg)) = .ok (main_run mode []) ∧
    run_program true (.error (.clientError msg)) =
      .ok [OutItem.stdoutLine no_data_json] :=
  ⟨rfl, rfl⟩

/-- Claim C8: the Aggregator is a pure function of its input sequence
(the embedding carries no state), so calling it twice on the same record
sequence yields identical Report values. -/
theorem C8_aggregate_deterministic (rs : List CostRecord) :
    process_cost_data rs = process_cost_data rs :=
  rfl

/-- Claim C3: for every non-empty record set, the Report's totalCost
equals the sum of all ServiceSummary costs and equals the sum of all
retained record costs (those with cost > 0.01).  Both equalities are
exact in rational arithmetic, hence hold within any 0.01 tolerance. -/
theorem C3_total_cost_consistent (rs : List CostRecord) (_hne : rs ≠ []) :
    (process_cost_data rs).totalCost =
      ((process_cost_data rs).services.map ServiceData.cost).sum ∧
    (process_cost_data rs).totalCost =
      ((rs.filter fun r => EPS < r.cost).map CostRecord.cost).sum := by
  constructor
  · show agg_total_cost rs = _
    rw [services_eq_map, List.map_map]
    rfl
  · exact agg_total_cost_eq_retained rs

/-- Claim C3, witness. -/
theorem C3_witness :
    exSingle ≠ [] ∧
    ((process_cost_data exSingle).totalCost =
        ((process_cost_data exSingle).services.map ServiceData.cost).sum ∧
      (process_cost_data exSingle).totalCost =
        ((exSingle.filter fun r => EPS < r.cost).map CostRecord.cost).sum) :=
  ⟨by decide, C3_total_cost_consistent exSingle (by decide)⟩

/-- Claim C4: for every ServiceSummary in the Report, the costs of its
usageTypes entries sum exactly to the service's own cost: the usage-type
> 0.01 filters remove nothing, because every retained record already has
cost > 0.01, so every usage-type group sum also exceeds 0.01. -/
theorem C4_usage_types_sum_to_service_cost (rs : List CostRecord)
    (s : ServiceData) (hs : s ∈ (process_cost_data rs).services) :
    (s.usageTypes.map UsageTypeCost.cost).sum = s.cost := by
  rw [services_eq_map] at hs
  rcases List.mem_map.mp hs with ⟨p, hp, rfl⟩
  show ((((agg_service_usage rs p.1).filter fun q => EPS < q.2).map
      fun q => ({ name := q.1, cost := q.2 } : UsageTypeCost)).map
        UsageTypeCost.cost).sum = p.2
  rw [List.map_map]
  have hcomp :
      (UsageTypeCost.cost ∘ fun q : String × ℚ =>
        ({ name := q.1, cost := q.2 } : UsageTypeCost)) = Prod.snd := rfl
  rw [hcomp, usage_sum_eq, ← agg_service_costs_spec rs p hp]

/-- The human-mode inline filter/group/sort pipeline (app.py lines
163-169) is, definitionally, the same computation as the one inside
`process_cost_data` (lines 72-78). -/
theorem human_service_costs_eq : human_service_costs = agg_service_costs :=
  rfl

/-- Evaluation of the example: the single ten-dollar record passes the
record filter. -/
theorem exSingle_agg_df : agg_df exSingle = exSingle := by
  simp [agg_df, exSingle, List.filter_cons, show EPS < (10:ℚ) by decide]

/-- Evaluation of the example: one service group, cost 10. -/
theorem exSingle_service_costs : agg_service_costs exSingle = [("EC2", 10)] := by
  rw [agg_service_costs, exSingle_agg_df]
  have hg : groupSum CostRecord.service exSingle = [("EC2", 10)] := by
    simp [groupSum, keysOf, exSingle, sortKeys, insertAsc, fiberSum, List.filter_cons]
  rw [hg]
  simp [List.filter_cons, show EPS < (10:ℚ) by decide, sort_values_desc, insertDesc]

/-- Evaluation of the example: one usage-type group, cost 10. -/
theorem exSingle_usage : agg_service_usage exSingle "EC2" = [("BoxUsage", 10)] := by
  rw [agg_service_usage, exSingle_agg_df]
  have hf : exSingle.filter (fun r => r.service = "EC2") = exSingle := by
    simp [exSingle, List.filter_cons]
  rw [hf]
  have hg : groupSum CostRecord.usageType exSingle = [("BoxUsage", 10)] := by
    simp [groupSum, keysOf, exSingle, sortKeys, insertAsc, fiberSum, List.filter_cons]
  rw [hg]
  simp [List.filter_cons, show EPS < (10:ℚ) by decide, sort_values_desc, insertDesc]

/-- Evaluation of the example: exactly one ServiceData entry. -/
theorem exSingle_services :
    (process_cost_data exSingle).services = [mkServiceData exSingle ("EC2", 10)] := by
  rw [services_eq_map, exSingle_service_costs]
  rfl

/-- Claim C4, witness. -/
theorem C4_witness :
    mkServiceData exSingle ("EC2", 10) ∈ (process_cost_data exSingle).services ∧
    ((mkServiceData exSingle ("EC2", 10)).usageTypes.map UsageTypeCost.cost).sum =
      (mkServiceData exSingle ("EC2", 10)).cost :=
  ⟨by rw [exSingle_services]; exact List.mem_cons_self _ _,
   C4_usage_types_sum_to_service_cost exSingle _
     (by rw [exSingle_services]; exact List.mem_cons_self _ _)⟩

/-- Claim C6: whenever a service percentage (cost / totalCost * 100) is
computed — i.e. whenever the services loop body runs, in either the
Aggregator or the human-mode path of main — the total is > 0.01, because
every surviving service group already has cost > 0.01 and the total is
their sum.  The division by totalCost is therefore never a division by
zero. -/
theorem C6_percentage_division_safe (rs : List CostRecord) :
    ((process_cost_data rs).services ≠ [] →
      EPS < (process_cost_data rs).totalCost) ∧
    (human_service_rows rs ≠ [] → EPS < human_total_cost rs) := by
  have key : agg_service_costs rs ≠ [] → EPS < agg_total_cost rs := by
    intro hne
    rcases List.exists_mem_of_ne_nil _ hne with ⟨p, hp⟩
    have hmem : p.2 ∈ (agg_service_costs rs).map Prod.snd :=
      List.mem_map_of_mem _ hp
    have hnn : ∀ x ∈ (agg_service_costs rs).map Prod.snd, 0 ≤ x := by
      intro x hx
      rcases List.mem_map.mp hx with ⟨q, hq, rfl⟩
      exact le_of_lt (lt_trans (show (0:ℚ) < EPS by decide)
        (agg_service_costs_pos rs q hq))
    exact lt_of_lt_of_le (agg_service_costs_pos rs p hp)
      (List.single_le_sum hnn _ hmem)
  constructor
  · intro h
    rw [services_eq_map] at h
    refine key fun hsc => h ?_
    rw [hsc]
    rfl
  · intro h
    have hrows : human_service_rows rs =
        (human_service_costs rs).map
          fun p => (p.1, p.2, p.2 / human_total_cost rs * 100) := by
      unfold human_service_rows
      exact filterMap_if_all (fun p : String × ℚ => EPS < p.2) _ _
        (agg_service_costs_pos rs)
    rw [hrows] at h
    refine key fun hsc => h ?_
    rw [human_service_costs_eq, hsc]
    rfl

/-- Claim C6, witness. -/
theorem C6_witness :
    EPS < (process_cost_data exSingle).totalCost ∧
    EPS < human_total_cost exSingle :=
  ⟨(C6_percentage_division_safe exSingle).1
      (by rw [exSingle_services]; simp),
   (C6_percentage_division_safe exSingle).2
      (by
        unfold human_service_rows
        rw [human_service_costs_eq, exSingle_service_costs]
        simp [List.filterMap_cons, show EPS < (10:ℚ) by decide])⟩

/-- Claim C7: the services of every Report are ordered by non-increasing
cost (descending, ties adjacent), and so is each service's usageTypes
list; the embedding's sort is deterministic, matching the claim's
deterministic tie-breaking. -/
theorem C7_sorted_by_descending_cost (rs : List CostRecord) :
    ((process_cost_data rs).services.Pairwise fun a b => b.cost ≤ a.cost) ∧
    ∀ s ∈ (process_cost_data rs).services,
      s.usageTypes.Pairwise fun a b => b.cost ≤ a.cost := by
  constructor
  · rw [services_eq_map, List.pairwise_map]
    exact sort_values_desc_sorted _
  · intro s hs
    rw [services_eq_map] at hs
    rcases List.mem_map.mp hs with ⟨p, hp, rfl⟩
    show (((agg_service_usage rs p.1).filter fun q => EPS < q.2).map
        fun q => ({ name := q.1, cost := q.2 } : UsageTypeCost)).Pairwise _
    rw [List.pairwise_map]
    exact (sort_values_desc_sorted _).sublist (List.filter_sublist _)

/-- Claim C7, witness. -/
theorem C7_witness :
    ((process_cost_data exSingle).services.Pairwise fun a b =>
      b.cost ≤ a.cost) ∧
    (mkServiceData exSingle ("EC2", 10)).usageTypes.Pairwise fun a b =>
      b.cost ≤ a.cost :=
  ⟨(C7_sorted_by_descending_cost exSingle).1,
   (C7_sorted_by_descending_cost exSingle).2 _
     (by rw [exSingle_services]; exact List.mem_cons_self _ _)⟩

/-- Claim C9: a non-empty fetch result in which every record is at or
below the 0.01 threshold does not take the "no data" error path: machine
mode prints a Report with totalCost 0 and empty services and dailyCosts
lists, not the error document. -/
theorem C9_subcent_records_not_error (costs : List CostRecord)
    (hne : costs ≠ []) (hsmall : ∀ r ∈ costs, r.cost ≤ EPS) :
    main_run true costs =
      [OutItem.reportDoc { totalCost := 0, services := [], dailyCosts := [] }] := by
  have hdf : agg_df costs = [] := by
    rw [agg_df, List.filter_eq_nil_iff]
    intro r hr
    simpa using not_lt.mpr (hsmall r hr)
  have hsc : agg_service_costs costs = [] := by
    rw [agg_service_costs, hdf]
    rfl
  have hrep : process_cost_data costs =
      { totalCost := 0, services := [], dailyCosts := [] } := by
    unfold process_cost_data agg_total_cost
    rw [hsc, hdf]
    rfl
  simp [main_run, hne, hrep]

/-- Claim C9, witness. -/
theorem C9_witness :
    exSub ≠ [] ∧ (∀ r ∈ exSub, r.cost ≤ EPS) ∧
    main_run true exSub =
      [OutItem.reportDoc { totalCost := 0, services := [], dailyCosts := [] }] :=
  ⟨by decide, by decide,
   C9_subcent_records_not_error exSub (by decide) (by decide)⟩

/-- Claim C10: the aggregation duplicated inline in the human-mode branch
of main computes the same retained records, the same per-service totals in
the same descending order, the same overall total, and the same
percentages as the machine-mode Aggregator: the services-table rows equal
the Report's (name, cost, percentage) triples, and each usage table equals
the Report's usageTypes with the percentage derived from the same two
costs.  The extra series-level > 0.01 filter the Aggregator applies before
sorting (absent at app.py line 212) removes nothing, so the two pipelines
coincide. -/
theorem C10_human_machine_agree (costs : List CostRecord) :
    human_df costs = agg_df costs ∧
    human_total_cost costs = (process_cost_data costs).totalCost ∧
    human_service_rows costs =
      (process_cost_data costs).services.map
        (fun s => (s.name, s.cost, s.percentage)) ∧
    human_usage_tables costs =
      (process_cost_data costs).services.map
        (fun s => (s.name, s.usageTypes.map fun u =>
          (u.name, u.cost, u.cost / s.cost * 100))) := by
  refine ⟨rfl, rfl, ?_, ?_⟩
  · have hrows : human_service_rows costs =
        (human_service_costs costs).map
          fun p => (p.1, p.2, p.2 / human_total_cost costs * 100) := by
      unfold human_service_rows
      exact filterMap_if_all (fun p : String × ℚ => EPS < p.2) _ _
        (agg_service_costs_pos costs)
    rw [hrows, services_eq_map, List.map_map]
    rfl
  · have htab : human_usage_tables costs =
        (human_service_costs costs).map fun p =>
          (p.1, ((sort_values_desc (groupSum CostRecord.usageType
              ((human_df costs).filter fun r => r.service = p.1))).filter
                fun q => EPS < q.2).map fun q => (q.1, q.2, q.2 / p.2 * 100)) := by
      show ((human_service_costs costs).filterMap fun p =>
          if EPS < p.2 then
            some (p.1, ((sort_values_desc (groupSum CostRecord.usageType
              ((human_df costs).filter fun r => r.service = p.1))).filter
                fun q => EPS < q.2).map fun q => (q.1, q.2, q.2 / p.2 * 100))
          else none) = _
      exact filterMap_if_all (fun p : String × ℚ => EPS < p.2) _ _
        (agg_service_costs_pos costs)
    rw [htab, services_eq_map, List.map_map]
    refine List.map_congr_left ?_
    intro p hp
    have h3 : ((agg_service_usage costs p.1).filter fun q => EPS < q.2) =
        (sort_values_desc (groupSum CostRecord.usageType
          ((agg_df costs).filter fun r => r.service = p.1))).filter
            fun q => EPS < q.2 := by
      unfold agg_service_usage
      rw [groupSum_filter_id (service_df_pos costs p.1)]
    have h4 : ((fun s : ServiceData => (s.name, s.usageTypes.map fun u =>
          (u.name, u.cost, u.cost / s.cost * 100))) ∘ mkServiceData costs) p =
        (p.1, ((agg_service_usage costs p.1).filter fun q => EPS < q.2).map
          fun q => (q.1, q.2, q.2 / p.2 * 100)) := by
      show (p.1, (((agg_service_usage costs p.1).filter fun q => EPS < q.2).map
          fun q => ({ name := q.1, cost := q.2 } : UsageTypeCost)).map
            fun u => (u.name, u.cost, u.cost / p.2 * 100)) = _
      rw [List.map_map]
      rfl
    rw [h4, h3]
    rfl
